import Mathlib

/-
Verification development for the pergit repository
(src/pergit/common.py and src/pergit/sync.py).

Python strings are modelled as lists of characters.  All definitions are
translated from the source files; definitions whose doc comment says
"specification-side" restate a property in spec terms and are only used on the
right-hand side of theorems.
-/

namespace Pergit

/-- Python `str.split(sep)` for a non-empty separator: worker. The first
numeric argument counts separator characters that still have to be skipped
after a match (Python split is non-overlapping and leftmost-first). -/
def pySplitGo (sep : List Char) : Nat → List Char → List (List Char)
  | 0, [] => [[]]
  | 0, c :: rest =>
    if sep.isPrefixOf (c :: rest) then
      [] :: pySplitGo sep (sep.length - 1) rest
    else
      match pySplitGo sep 0 rest with
      | [] => [[c]]
      | t :: ts => (c :: t) :: ts
  | _ + 1, [] => [[]]
  | k + 1, _ :: rest => pySplitGo sep k rest

/-- Python `line.split(pattern)` for the non-empty separators used in
`parse_p4_sync_line`. -/
def pySplit (sep l : List Char) : List (List Char) :=
  pySplitGo sep 0 l

/-- ASCII whitespace characters, as stripped by `str.rstrip()` (Python also
strips some exotic unicode whitespace, which cannot occur in the tool output
lines handled here). -/
def pyIsSpace (c : Char) : Bool :=
  c = ' ' || c = '\t' || c = '\n' || c = '\r' || c = '\x0b' || c = '\x0c'

/-- Python `str.rstrip()`: remove trailing whitespace. -/
def pyRstrip (l : List Char) : List Char :=
  (l.reverse.dropWhile pyIsSpace).reverse

/-- The stderr marker consumed by `get_writable_files`
(`cant_clobber_prefix` in src/pergit/sync.py). -/
def cantClobberMarker : List Char := "Can't clobber writable file ".toList

/-- Embedding of `get_writable_files` (src/pergit/sync.py, lines 21-30):
keep the stderr lines that start with the clobber marker, drop the marker and
strip trailing whitespace. -/
def get_writable_files : List (List Char) → List (List Char)
  | [] => []
  | line :: rest =>
    if cantClobberMarker.isPrefixOf line then
      pyRstrip (line.drop cantClobberMarker.length) :: get_writable_files rest
    else
      get_writable_files rest

/-- Marker of added files in `parse_p4_sync_line` (src/pergit/sync.py, line 36). -/
def addMarker : List Char := " - added as ".toList

/-- Marker of deleted files in `parse_p4_sync_line` (src/pergit/sync.py, line 37). -/
def delMarker : List Char := " - deleted as ".toList

/-- Marker of updated files in `parse_p4_sync_line` (src/pergit/sync.py, line 38). -/
def updMarker : List Char := " - updating ".toList

/-- The `(mode, pattern)` table of `parse_p4_sync_line`
(src/pergit/sync.py, lines 35-40), in source order. -/
def syncLinePatterns : List (String × List Char) :=
  [("add", addMarker),
   ("del", delMarker),
   ("upd", updMarker),
   ("clb", cantClobberMarker)]

/-- Worker of `parse_p4_sync_line`: try each pattern in order; a pattern is
used exactly when `line.split(pattern)` yields two tokens, and then the second
token is returned unchanged. -/
def parseSyncGo (line : List Char) : List (String × List Char) → Option String × Option (List Char)
  | [] => (none, none)
  | (mode, pat) :: rest =>
    match pySplit pat line with
    | [_, t1] => (some mode, some t1)
    | _ => parseSyncGo line rest

/-- Embedding of `parse_p4_sync_line` (src/pergit/sync.py, lines 33-46). -/
def parse_p4_sync_line (line : List Char) : Option String × Option (List Char) :=
  parseSyncGo line syncLinePatterns

/-- Embedding of `get_file_size` (src/pergit/sync.py, lines 49-54).  The
filesystem is abstracted as a partial map from file names to sizes; `none`
models `os.path.isfile` returning False, in which case the function returns 0. -/
def get_file_size (fs : List Char → Option Nat) (filename : List Char) : Nat :=
  match fs filename with
  | none => 0
  | some sz => sz

/-- Embedding of class `SyncStats` (src/pergit/sync.py, lines 62-67). -/
structure SyncStats where
  count : Nat
  total_size : Nat
deriving Repr, DecidableEq

/-- State of class `P4SyncOutputProcessor` (src/pergit/sync.py, lines 79-117).
The `stats` dictionary has the fixed key set `add/del/upd/clb`, modelled as
four fields; the wall-clock `start_timestamp` is kept outside the state and
enters `get_sync_stats` as an explicit elapsed-duration argument. -/
structure P4SyncOutputProcessor where
  synced_file_count : Nat
  file_count_to_sync : Int
  add : SyncStats
  del : SyncStats
  upd : SyncStats
  clb : SyncStats
deriving Repr, DecidableEq

/-- Embedding of `P4SyncOutputProcessor.__init__`. -/
def P4SyncOutputProcessor.init (file_count_to_sync : Int) : P4SyncOutputProcessor :=
  ⟨0, file_count_to_sync, ⟨0, 0⟩, ⟨0, 0⟩, ⟨0, 0⟩, ⟨0, 0⟩⟩

/-- The statement `self.stats[mode].count += 1`, guarded by
`if mode in self.stats:` (src/pergit/sync.py, lines 100-101). -/
def P4SyncOutputProcessor.bumpCount (st : P4SyncOutputProcessor) (mode : String) :
    P4SyncOutputProcessor :=
  match mode with
  | "add" => { st with add := { st.add with count := st.add.count + 1 } }
  | "del" => { st with del := { st.del with count := st.del.count + 1 } }
  | "upd" => { st with upd := { st.upd with count := st.upd.count + 1 } }
  | "clb" => { st with clb := { st.clb with count := st.clb.count + 1 } }
  | _ => st

/-- The statement `self.stats[mode].total_size += size` for
`mode in ['add', 'upd', 'clb']` (src/pergit/sync.py, lines 112-114). -/
def P4SyncOutputProcessor.bumpSize (st : P4SyncOutputProcessor) (mode : String) (sz : Nat) :
    P4SyncOutputProcessor :=
  match mode with
  | "add" => { st with add := { st.add with total_size := st.add.total_size + sz } }
  | "upd" => { st with upd := { st.upd with total_size := st.upd.total_size + sz } }
  | "clb" => { st with clb := { st.clb with total_size := st.clb.total_size + sz } }
  | _ => st

/-- Literal tail of the up-to-date regular expression of
`P4SyncOutputProcessor.__call__` (src/pergit/sync.py, line 91). -/
def upToDateTail : List Char := " - file(s) up-to-date.".toList

/-- After the `@` of the up-to-date pattern: at least one digit followed by
the literal tail (backtracking of the greedy digit quantifier is expressed as
accepting the tail at any digit boundary). -/
def upToDateDigits : List Char → Bool
  | [] => false
  | c :: rest =>
    upToDateTail.isPrefixOf (c :: rest) ||
      (c.isDigit && upToDateDigits rest)

/-- Match the up-to-date regular expression at the head of the list:
two slashes, three arbitrary characters (the dots of the pattern are
unescaped), an `@`, one or more digits, then the literal tail. -/
def upToDateMatchAt : List Char → Bool
  | '/' :: '/' :: _ :: _ :: _ :: '@' :: c :: rest =>
    c.isDigit && upToDateDigits rest
  | _ => false

/-- Embedding of `re.search` with the up-to-date pattern of
src/pergit/sync.py line 91: try a match at every start position. -/
def upToDateSearch : List Char → Bool
  | [] => false
  | c :: rest => upToDateMatchAt (c :: rest) || upToDateSearch rest

/-- Embedding of `P4SyncOutputProcessor.__call__`
(src/pergit/sync.py, lines 90-117).  Print statements carry no state; the
`not mode or not filename` test covers both `None` and the empty string
(Python falsiness). -/
def P4SyncOutputProcessor.call (fs : List Char → Option Nat)
    (st : P4SyncOutputProcessor) (line : List Char) : P4SyncOutputProcessor :=
  if upToDateSearch line then st
  else
    match parse_p4_sync_line line with
    | (some mode, some filename) =>
      if mode = "" ∨ filename = [] then st
      else
        let st1 := st.bumpCount mode
        let st2 := { st1 with synced_file_count := st1.synced_file_count + 1 }
        if mode = "add" ∨ mode = "upd" ∨ mode = "clb" then
          st2.bumpSize mode (get_file_size fs filename)
        else st2
    | _ => st

/-- Feed a whole sequence of output lines to one processor instance (the
processor is invoked once per streamed line by `run_with_output`). -/
def P4SyncOutputProcessor.observeAll (fs : List Char → Option Nat)
    (st : P4SyncOutputProcessor) (lines : List (List Char)) : P4SyncOutputProcessor :=
  lines.foldl (P4SyncOutputProcessor.call fs) st

/-- Specification-side view of one observed line: the `(mode, filename)` pair
that `P4SyncOutputProcessor.__call__` actually counts, or `none` when the line
is informational (up-to-date) or unparsable.  Used only on the
specification side of theorems about the aggregator. -/
def observedParse (line : List Char) : Option (String × List Char) :=
  if upToDateSearch line then none
  else
    match parse_p4_sync_line line with
    | (some mode, some filename) =>
      if mode = "" ∨ filename = [] then none else some (mode, filename)
    | _ => none

/-- Specification-side view: the event kind charged for one observed line. -/
def observedMode (line : List Char) : Option String :=
  (observedParse line).map Prod.fst

/-- Specification-side: the on-disk size charged to kind `m` by one observed
line (zero when the line is not counted, is of another kind, or is of a kind
whose size is never resolved). -/
def chargedSize (fs : List Char → Option Nat) (m : String) (line : List Char) : Nat :=
  match observedParse line with
  | some (m2, f) => if m2 == m then get_file_size fs f else 0
  | none => 0

/-- Specification-side: how many lines of the sequence are counted under
kind `m`. -/
def modeCount (m : String) (lines : List (List Char)) : Nat :=
  lines.countP (fun l => observedMode l == some m)

/-- Specification-side: total size charged to kind `m` over a line
sequence. -/
def modeSizeSum (fs : List Char → Option Nat) (m : String)
    (lines : List (List Char)) : Nat :=
  (lines.map (chargedSize fs m)).sum

/-- Sample output sequence used to evaluate the aggregator at a concrete
input: two added lines, one updated line, one clobber-blocked line. -/
def sampleSyncLines : List (List Char) :=
  ["//d/a#1 - added as /ws/a".toList,
   "//d/b#2 - added as /ws/b".toList,
   "//d/c#3 - updating /ws/c".toList,
   "Can't clobber writable file /ws/d".toList]

/-- Sample filesystem in which every path is a file of size 10. -/
def sampleFs : List Char → Option Nat := fun _ => some 10

/-- The `synced_count` value of `get_sync_stats`
(src/pergit/sync.py, lines 124-125); Python integer subtraction, hence `Int`. -/
def synced_count (st : P4SyncOutputProcessor) : Int :=
  (st.add.count : Int) + st.upd.count - st.clb.count

/-- The `synced_size` value of `get_sync_stats`
(src/pergit/sync.py, lines 126-127). -/
def synced_size (st : P4SyncOutputProcessor) : Int :=
  (st.add.total_size : Int) + st.upd.total_size - st.clb.total_size

/-- Numeric content of the formatted statistics string of `get_sync_stats`. -/
structure SyncStatsReport where
  file_count : Int
  size : Int
  duration_sec : ℚ
  average_speed : ℚ
deriving Repr, DecidableEq

/-- Embedding of `P4SyncOutputProcessor.get_sync_stats`
(src/pergit/sync.py, lines 119-133).  The string is modelled by the numbers
formatted into it; `duration_sec` is the elapsed time `timer() -
self.start_timestamp`.  Python evaluates `synced_size / duration_sec` while
building the string and raises `ZeroDivisionError` when `duration_sec` is
zero; the raise is modelled as `none`. -/
def get_sync_stats (st : P4SyncOutputProcessor) (duration_sec : ℚ) :
    Option SyncStatsReport :=
  if duration_sec = 0 then none
  else some ⟨synced_count st, synced_size st, duration_sec,
             (synced_size st : ℚ) / duration_sec⟩

/-- Embedding of `RunResult` (src/pergit/common.py, lines 42-48), with
stdout/stderr already split into lines as the source stores them. -/
structure RunResult where
  returncode : Int
  stdout : List (List Char)
  stderr : List (List Char)
deriving Repr, DecidableEq

/-- Embedding of `get_file_count_to_sync` (src/pergit/sync.py, lines 155-163),
abstracting the dry-run child process by its `RunResult`. -/
def get_file_count_to_sync (dryRes : RunResult) : Int :=
  if dryRes.returncode ≠ 0 then -1 else dryRes.stdout.length

/-- Observable outcome of `p4_sync`: the returned boolean, the blocked paths
printed in the non-forced abort branch (src/pergit/sync.py, lines 191-192),
and the number of `p4_force_sync_file` invocations performed. -/
structure P4SyncResult where
  success : Bool
  listed_files : List (List Char)
  forced_retries : Nat
deriving Repr, DecidableEq

/-- The forced-retry loop of `p4_sync` (src/pergit/sync.py, lines 186-188):
one `p4_force_sync_file` call per writable file, aborting on the first
non-zero return code.  `retry` abstracts `p4_force_sync_file`'s return code
per file name. -/
def forceSyncLoop (retry : List Char → Int) : List (List Char) → Bool × Nat
  | [] => (true, 0)
  | f :: rest =>
    if retry f ≠ 0 then (false, 1)
    else
      let r := forceSyncLoop retry rest
      (r.1, r.2 + 1)

/-- Embedding of `p4_sync` (src/pergit/sync.py, lines 166-195).  The two
child-process runs are abstracted by their results: `dryRes` for the
non-mutating count run and `syncRes` for the mutating run. -/
def p4_sync (dryRes syncRes : RunResult) (force : Bool)
    (retry : List Char → Int) : P4SyncResult :=
  let file_count_to_sync := get_file_count_to_sync dryRes
  if file_count_to_sync < 0 then ⟨false, [], 0⟩
  else if file_count_to_sync = 0 then ⟨true, [], 0⟩
  else if syncRes.returncode = 0 then ⟨true, [], 0⟩
  else
    let writable_files := get_writable_files syncRes.stderr
    if force then
      let r := forceSyncLoop retry writable_files
      ⟨r.1, [], r.2⟩
    else
      ⟨false, writable_files, 0⟩

/-- Embedding of the commit message built by `sync_command`
(src/pergit/sync.py, line 308): `'%s: p4 sync //...@%s' % (cl, cl)` with the
changelist rendered in decimal. -/
def commit_msg (changelist : Nat) : List Char :=
  (Nat.repr changelist).toList ++ ": p4 sync //...@".toList ++ (Nat.repr changelist).toList

/-- Literal part of the last-commit pattern of `git_changelist_of_last_commit`
(src/pergit/sync.py, line 247), between the capture group and its
back-reference. -/
def changelistLit : List Char := ": p4 sync //...@".toList

/-- Back-tracking of the greedy one-or-more-digits capture group at one start
position: try group lengths from `k` down to 1; a candidate group must be
followed by the literal and then by the group text again (the
back-reference). -/
def changelistTryGroup (l : List Char) : Nat → Option (List Char)
  | 0 => none
  | k + 1 =>
    let g := l.take (k + 1)
    let rest := l.drop (k + 1)
    if changelistLit.isPrefixOf rest && g.isPrefixOf (rest.drop changelistLit.length) then
      some g
    else
      changelistTryGroup l k

/-- Match the last-commit pattern at the head of the list, returning the text
of the capture group.  The group can only consist of leading digits, so the
greedy attempt starts at the full digit run. -/
def changelistMatchAt (l : List Char) : Option (List Char) :=
  changelistTryGroup l (l.takeWhile Char.isDigit).length

/-- Embedding of `re.search` with the last-commit pattern of
src/pergit/sync.py line 247: return the capture group of the leftmost
match. -/
def changelistSearch : List Char → Option (List Char)
  | [] => none
  | c :: rest =>
    match changelistMatchAt (c :: rest) with
    | some g => some g
    | none => changelistSearch rest

/-- Python `int()` on a string of decimal digits. -/
def pyInt (l : List Char) : Nat :=
  l.foldl (fun a c => 10 * a + (c.toNat - 48)) 0

/-- Embedding of `git_changelist_of_last_commit`
(src/pergit/sync.py, lines 239-252), abstracting the `git log` child process
by its `RunResult`. -/
def git_changelist_of_last_commit (res : RunResult) : Option Nat :=
  if res.returncode ≠ 0 then none
  else
    match res.stdout with
    | [] => none
    | msg :: _ =>
      match changelistSearch msg with
      | some g => some (pyInt g)
      | none => none

/-
Model of `run_with_output` (src/pergit/common.py, lines 92-199).

The child process and the two drain threads run concurrently with the polling
loop; an execution is a sequence of atomic scheduler actions over the state
below.  `pipe_out`/`pipe_err` hold the lines the child wrote that the drain
thread of that stream has not read yet; `queue_out`/`queue_err` are the two
thread-safe queues filled by `enqueue_lines`; `stdout_lines`/`stderr_lines`
and `delivered` are the lists built by the polling loop.  The child may exit
while its pipes still hold unread data.
-/

/-- Scheduler state of one `run_with_output` execution. -/
structure RunnerState where
  pipe_out : List (List Char)
  pipe_err : List (List Char)
  queue_out : List (List Char)
  queue_err : List (List Char)
  stdout_lines : List (List Char)
  stderr_lines : List (List Char)
  delivered : List (List Char × Bool)
  exited : Option Int
deriving Repr, DecidableEq

/-- Initial state: the child's whole per-stream output sits in the pipes,
nothing has been read, queued or delivered, and the exit has not been
observed. -/
def RunnerState.init (child_stdout child_stderr : List (List Char)) : RunnerState :=
  ⟨child_stdout, child_stderr, [], [], [], [], [], none⟩

/-- One scheduler action: a drain thread moves one line from its pipe into
its queue (`enqueue_lines` applies `rstrip`); the child exit becomes
observable to `process.poll()`; the polling loop runs one iteration of its
`while True` body; or a `KeyboardInterrupt` arrives in the `try` block (the
boolean records whether the child then exits within the 5-second grace
period). -/
inductive RunnerAction where
  | drainOut
  | drainErr
  | childExit (rc : Int)
  | pollIter
  | keyboardInterrupt (childExitsInGrace : Bool)
deriving Repr, DecidableEq

/-- Steps of the interrupt shutdown sequence of `run_with_output`
(src/pergit/common.py, lines 185-193). -/
inductive ShutdownStep where
  | terminate
  | wait (seconds : Nat)
  | kill
deriving Repr, DecidableEq

/-- Outcome of running a schedule: still inside the polling loop, returned a
`RunResult` (with the handler-delivery log), or terminated the whole process
via `sys.exit`. -/
inductive RunnerOutcome where
  | running (st : RunnerState)
  | returned (res : RunResult) (delivered : List (List Char × Bool))
  | exitProcess (status : Int) (shutdown : List ShutdownStep)
deriving Repr, DecidableEq

/-- One iteration of the polling loop (src/pergit/common.py, lines 155-164):
`poll_queue_until_empty` drains each queue in order, appending each line to
the result list and delivering it to the handler; then, if the child exit has
been observed and both queues were left empty, the loop breaks.  After the
break the drain threads are joined (their remaining pipe content goes into
the queues, which nothing reads any more) and `process.communicate()` returns
nothing because the threads consume both streams to EOF, so the returned
`RunResult` holds exactly the lines accumulated so far. -/
def pollOnce (st : RunnerState) : RunnerOutcome :=
  let st1 : RunnerState :=
    { st with
      stdout_lines := st.stdout_lines ++ st.queue_out
      stderr_lines := st.stderr_lines ++ st.queue_err
      delivered := st.delivered ++ st.queue_out.map (fun l => (l, true))
        ++ st.queue_err.map (fun l => (l, false))
      queue_out := []
      queue_err := [] }
  match st.exited with
  | some rc => .returned ⟨rc, st1.stdout_lines, st1.stderr_lines⟩ st1.delivered
  | none => .running st1

/-- Semantics of one scheduler action. -/
def runnerStep (st : RunnerState) : RunnerAction → RunnerOutcome
  | .drainOut =>
    match st.pipe_out with
    | [] => .running st
    | l :: rest => .running { st with pipe_out := rest, queue_out := st.queue_out ++ [pyRstrip l] }
  | .drainErr =>
    match st.pipe_err with
    | [] => .running st
    | l :: rest => .running { st with pipe_err := rest, queue_err := st.queue_err ++ [pyRstrip l] }
  | .childExit rc => .running { st with exited := some rc }
  | .pollIter => pollOnce st
  | .keyboardInterrupt b =>
    .exitProcess 1 ([.terminate, .wait 5] ++ if b then [] else [.kill])

/-- Run a schedule of actions from a state; once the polling loop has broken
or the process has exited, the remaining schedule is irrelevant. -/
def run_with_output (actions : List RunnerAction) (st : RunnerState) : RunnerOutcome :=
  match actions with
  | [] => .running st
  | a :: rest =>
    match runnerStep st a with
    | .running st1 => run_with_output rest st1
    | o => o

/-! Theorems. -/

/-- Running a concatenated schedule runs the first part and, while the
polling loop is still live, continues with the second part. -/
theorem run_with_output_append (xs ys : List RunnerAction) (st : RunnerState) :
    run_with_output (xs ++ ys) st =
      match run_with_output xs st with
      | .running st1 => run_with_output ys st1
      | o => o := by
  induction xs generalizing st with
  | nil => rfl
  | cons a rest ih =>
    simp only [List.cons_append, run_with_output]
    cases h : runnerStep st a with
    | running st1 => exact ih st1
    | returned res d => rfl
    | exitProcess s t => rfl

/-- C1: the claim that `run_with_output` delivers every line the child writes
and returns exactly the written lines fails on the code.  In the schedule
below the child writes one stdout line and exits; the polling loop observes
the exit while both queues are still empty (the stdout drain thread has not
run yet) and breaks.  The drain thread then enqueues the line during
`out_thread.join()`, but nothing reads the queues after the loop, and
`process.communicate()` returns nothing because the drain threads consume the
streams to EOF.  So `run_with_output` returns with an empty stdout list and
the handler is never called, although the child wrote one line. -/
theorem run_with_output_drops_trailing_line :
    run_with_output [.childExit 0, .pollIter] (RunnerState.init ["a".toList] [])
      = .returned ⟨0, [], []⟩ []
    ∧ ["a".toList] ≠ ([] : List (List Char)) := by
  decide

/-- C9: a keyboard interrupt arriving while the polling loop of
`run_with_output` is live makes it request termination of the child, wait up
to 5 seconds, force-kill the child when it has not exited within the grace
period, and exit the whole process with status 1; no schedule ending in an
interrupt returns a `RunResult`. -/
theorem interrupt_is_fatal (pre : List RunnerAction) (b : Bool)
    (co ce : List (List Char)) (st : RunnerState)
    (h : run_with_output pre (RunnerState.init co ce) = .running st) :
    run_with_output (pre ++ [.keyboardInterrupt b]) (RunnerState.init co ce)
      = .exitProcess 1 ([.terminate, .wait 5] ++ if b then [] else [.kill])
    ∧ ∀ res d, run_with_output (pre ++ [.keyboardInterrupt b]) (RunnerState.init co ce)
        ≠ .returned res d := by
  have key : run_with_output (pre ++ [.keyboardInterrupt b]) (RunnerState.init co ce)
      = .exitProcess 1 ([.terminate, .wait 5] ++ if b then [] else [.kill]) := by
    rw [run_with_output_append, h]
    rfl
  refine ⟨key, fun res d hc => ?_⟩
  rw [key] at hc
  exact RunnerOutcome.noConfusion hc

/-- Witness for C9: the empty prefix with a child that does not terminate
within the grace period. -/
theorem interrupt_is_fatal_witness :
    run_with_output [.keyboardInterrupt false] (RunnerState.init [] [])
      = .exitProcess 1 [.terminate, .wait 5, .kill] := by
  have h := (interrupt_is_fatal [] false [] [] (RunnerState.init [] []) rfl).1
  simpa using h

/-- C6: processing the line `//...@123 - file(s) up-to-date.` matches the
informational up-to-date pattern and returns before any mutation, so every
statistics field (per-kind counts, per-kind total sizes, the synced-file
counter and the target count) is unchanged. -/
theorem up_to_date_line_leaves_state_unchanged (fs : List Char → Option Nat)
    (st : P4SyncOutputProcessor) :
    P4SyncOutputProcessor.call fs st "//...@123 - file(s) up-to-date.".toList = st := by
  unfold P4SyncOutputProcessor.call
  have h : upToDateSearch "//...@123 - file(s) up-to-date.".toList = true := by decide
  rw [h]
  simp

/-- C4 counterexample: at elapsed time exactly 0, `get_sync_stats` evaluates
`synced_size / duration_sec` with a zero divisor, which raises
`ZeroDivisionError` in Python (modelled as `none`); no sentinel value is
produced, contrary to the claim. -/
theorem get_sync_stats_zero_elapsed_raises :
    get_sync_stats (P4SyncOutputProcessor.init 3) 0 = none := rfl

/-- C4 (amended): for every nonzero elapsed duration the statistics render
without a division error, reporting the average speed
`synced_size / duration_sec`; at zero elapsed duration the code raises
instead of producing a sentinel. -/
theorem get_sync_stats_nonzero_elapsed (st : P4SyncOutputProcessor) (d : ℚ)
    (hd : d ≠ 0) :
    get_sync_stats st d
      = some ⟨synced_count st, synced_size st, d, (synced_size st : ℚ) / d⟩ := by
  unfold get_sync_stats
  rw [if_neg hd]

/-- Witness for C4 (amended): the fresh processor at one second of elapsed
time. -/
theorem get_sync_stats_nonzero_elapsed_witness :
    get_sync_stats (P4SyncOutputProcessor.init 5) 1 = some ⟨0, 0, 1, 0⟩ := by
  rw [get_sync_stats_nonzero_elapsed (P4SyncOutputProcessor.init 5) 1 (by norm_num)]
  norm_num [synced_count, synced_size, P4SyncOutputProcessor.init]

/-- When `line.split(pattern)` yields exactly two tokens, the pattern table
entry is used and the second token is returned unchanged. -/
theorem parseSyncGo_hit (line pre post : List Char) (mode : String) (pat : List Char)
    (rest : List (String × List Char)) (h : pySplit pat line = [pre, post]) :
    parseSyncGo line ((mode, pat) :: rest) = (some mode, some post) := by
  simp [parseSyncGo, h]

/-- When `line.split(pattern)` does not yield exactly two tokens, the pattern
table entry is skipped and the remaining patterns are tried. -/
theorem parseSyncGo_skip (line : List Char) (mode : String) (pat : List Char)
    (rest : List (String × List Char)) (h : (pySplit pat line).length ≠ 2) :
    parseSyncGo line ((mode, pat) :: rest) = parseSyncGo line rest := by
  rcases hs : pySplit pat line with _ | ⟨a, _ | ⟨b, _ | ⟨c, tl⟩⟩⟩
  · simp [parseSyncGo, hs]
  · simp [parseSyncGo, hs]
  · exact absurd (by simp [hs]) h
  · simp [parseSyncGo, hs]

/-- Any mode returned by the pattern-table worker is the mode of one of its
entries. -/
theorem parseSyncGo_fst_mem (line : List Char) (ps : List (String × List Char))
    (m : String) (h : (parseSyncGo line ps).1 = some m) :
    m ∈ ps.map Prod.fst := by
  induction ps with
  | nil => simp [parseSyncGo] at h
  | cons p tl ih =>
    obtain ⟨mode, pat⟩ := p
    rcases hs : pySplit pat line with _ | ⟨a, _ | ⟨b, _ | ⟨c, t2⟩⟩⟩
    · rw [parseSyncGo_skip line mode pat tl (by simp [hs])] at h
      exact List.mem_cons_of_mem _ (ih h)
    · rw [parseSyncGo_skip line mode pat tl (by simp [hs])] at h
      exact List.mem_cons_of_mem _ (ih h)
    · rw [parseSyncGo_hit line a b mode pat tl hs] at h
      simp at h
      simp [h]
    · rw [parseSyncGo_skip line mode pat tl (by simp [hs])] at h
      exact List.mem_cons_of_mem _ (ih h)

/-- C3 counterexample: the classifier does not trim trailing whitespace from
the path.  On a line whose text after the marker ends in a space,
`parse_p4_sync_line` returns the path with the space kept, which differs from
the trimmed path the claim promises (the `rstrip` happens elsewhere: in
`enqueue_lines` before classification and in `get_writable_files`). -/
theorem parse_p4_sync_line_keeps_trailing_space :
    parse_p4_sync_line "//depot/a.txt#3 - added as /ws/a.txt ".toList
      = (some "add", some "/ws/a.txt ".toList)
    ∧ pyRstrip "/ws/a.txt ".toList = "/ws/a.txt".toList
    ∧ "/ws/a.txt ".toList ≠ "/ws/a.txt".toList := by
  refine ⟨by decide, by decide, by decide⟩

/-- C3 (amended): for every line on which one marker splits into exactly two
tokens and no earlier-precedence marker does, `parse_p4_sync_line` returns
the corresponding kind together with the text after the marker unchanged (no
whitespace trimming); the claim's example line yields kind `add` and path
`/ws/a.txt`. -/
theorem parse_p4_sync_line_classifies (line pre post : List Char) :
    (pySplit addMarker line = [pre, post] →
      parse_p4_sync_line line = (some "add", some post))
    ∧ (pySplit delMarker line = [pre, post] →
       (pySplit addMarker line).length ≠ 2 →
      parse_p4_sync_line line = (some "del", some post))
    ∧ (pySplit updMarker line = [pre, post] →
       (pySplit addMarker line).length ≠ 2 →
       (pySplit delMarker line).length ≠ 2 →
      parse_p4_sync_line line = (some "upd", some post))
    ∧ (pySplit cantClobberMarker line = [pre, post] →
       (pySplit addMarker line).length ≠ 2 →
       (pySplit delMarker line).length ≠ 2 →
       (pySplit updMarker line).length ≠ 2 →
      parse_p4_sync_line line = (some "clb", some post))
    ∧ parse_p4_sync_line "//depot/a.txt#3 - added as /ws/a.txt".toList
        = (some "add", some "/ws/a.txt".toList) := by
  refine ⟨?_, ?_, ?_, ?_, by decide⟩
  · intro h
    exact parseSyncGo_hit line pre post "add" addMarker _ h
  · intro h hskip
    unfold parse_p4_sync_line syncLinePatterns
    rw [parseSyncGo_skip line "add" addMarker _ hskip]
    exact parseSyncGo_hit line pre post "del" delMarker _ h
  · intro h hs1 hs2
    unfold parse_p4_sync_line syncLinePatterns
    rw [parseSyncGo_skip line "add" addMarker _ hs1,
        parseSyncGo_skip line "del" delMarker _ hs2]
    exact parseSyncGo_hit line pre post "upd" updMarker _ h
  · intro h hs1 hs2 hs3
    unfold parse_p4_sync_line syncLinePatterns
    rw [parseSyncGo_skip line "add" addMarker _ hs1,
        parseSyncGo_skip line "del" delMarker _ hs2,
        parseSyncGo_skip line "upd" updMarker _ hs3]
    exact parseSyncGo_hit line pre post "clb" cantClobberMarker _ h

/-- Witness for C3 (amended): one added line and one deleted line, and the
path is returned untrimmed. -/
theorem parse_p4_sync_line_classifies_witness :
    parse_p4_sync_line "//depot/a.txt#3 - added as /ws/a.txt".toList
      = (some "add", some "/ws/a.txt".toList)
    ∧ parse_p4_sync_line "//d/b.txt#1 - deleted as /ws/b.txt".toList
      = (some "del", some "/ws/b.txt".toList) :=
  ⟨(parse_p4_sync_line_classifies "//depot/a.txt#3 - added as /ws/a.txt".toList
      "//depot/a.txt#3".toList "/ws/a.txt".toList).1 (by decide),
   (parse_p4_sync_line_classifies "//d/b.txt#1 - deleted as /ws/b.txt".toList
      "//d/b.txt#1".toList "/ws/b.txt".toList).2.1 (by decide) (by decide)⟩

/-- C10: a marker that does not split the line into exactly two tokens (in
particular a marker occurring two or more times, which yields three or more
tokens) never classifies the line under that marker's kind; and when no
marker at all splits the line into exactly two tokens, the classifier returns
`(None, None)`, even when marker text is present in the line. -/
theorem parse_p4_sync_line_skips_repeated_markers (line : List Char) :
    ((pySplit addMarker line).length ≠ 2 → (parse_p4_sync_line line).1 ≠ some "add")
    ∧ ((pySplit delMarker line).length ≠ 2 → (parse_p4_sync_line line).1 ≠ some "del")
    ∧ ((pySplit updMarker line).length ≠ 2 → (parse_p4_sync_line line).1 ≠ some "upd")
    ∧ ((pySplit cantClobberMarker line).length ≠ 2 →
        (parse_p4_sync_line line).1 ≠ some "clb")
    ∧ ((pySplit addMarker line).length ≠ 2 →
       (pySplit delMarker line).length ≠ 2 →
       (pySplit updMarker line).length ≠ 2 →
       (pySplit cantClobberMarker line).length ≠ 2 →
      parse_p4_sync_line line = (none, none)) := by
  refine ⟨?_, ?_, ?_, ?_, ?_⟩
  · intro h hc
    have hm := parseSyncGo_fst_mem line _ _
      (by rw [parse_p4_sync_line, syncLinePatterns] at hc
          rw [parseSyncGo_skip line "add" addMarker _ h] at hc
          exact hc)
    simp at hm
  · intro h hc
    rw [parse_p4_sync_line, syncLinePatterns] at hc
    rcases hs : pySplit addMarker line with _ | ⟨a, _ | ⟨b, _ | ⟨c, t2⟩⟩⟩
    all_goals first
      | (rw [parseSyncGo_hit line _ _ "add" addMarker _ hs] at hc; simp at hc)
      | (rw [parseSyncGo_skip line "add" addMarker _ (by simp [hs])] at hc
         rw [parseSyncGo_skip line "del" delMarker _ h] at hc
         have hm := parseSyncGo_fst_mem line _ _ hc
         simp at hm)
  · intro h hc
    rw [parse_p4_sync_line, syncLinePatterns] at hc
    rcases hs : pySplit addMarker line with _ | ⟨a, _ | ⟨b, _ | ⟨c, t2⟩⟩⟩
    all_goals first
      | (rw [parseSyncGo_hit line _ _ "add" addMarker _ hs] at hc; simp at hc)
      | (rcases hs2 : pySplit delMarker line with _ | ⟨a2, _ | ⟨b2, _ | ⟨c2, t3⟩⟩⟩
         all_goals first
           | (rw [parseSyncGo_skip line "add" addMarker _ (by simp [hs])] at hc
              rw [parseSyncGo_hit line _ _ "del" delMarker _ hs2] at hc; simp at hc)
           | (rw [parseSyncGo_skip line "add" addMarker _ (by simp [hs])] at hc
              rw [parseSyncGo_skip line "del" delMarker _ (by simp [hs2])] at hc
              rw [parseSyncGo_skip line "upd" updMarker _ h] at hc
              have hm := parseSyncGo_fst_mem line _ _ hc
              simp at hm))
  · intro h hc
    rw [parse_p4_sync_line, syncLinePatterns] at hc
    rcases hs : pySplit addMarker line with _ | ⟨a, _ | ⟨b, _ | ⟨c, t2⟩⟩⟩
    all_goals first
      | (rw [parseSyncGo_hit line _ _ "add" addMarker _ hs] at hc; simp at hc)
      | (rcases hs2 : pySplit delMarker line with _ | ⟨a2, _ | ⟨b2, _ | ⟨c2, t3⟩⟩⟩
         all_goals first
           | (rw [parseSyncGo_skip line "add" addMarker _ (by simp [hs])] at hc
              rw [parseSyncGo_hit line _ _ "del" delMarker _ hs2] at hc; simp at hc)
           | (rcases hs3 : pySplit updMarker line with _ | ⟨a3, _ | ⟨b3, _ | ⟨c3, t4⟩⟩⟩
              all_goals first
                | (rw [parseSyncGo_skip line "add" addMarker _ (by simp [hs])] at hc
                   rw [parseSyncGo_skip line "del" delMarker _ (by simp [hs2])] at hc
                   rw [parseSyncGo_hit line _ _ "upd" updMarker _ hs3] at hc
                   simp at hc)
                | (rw [parseSyncGo_skip line "add" addMarker _ (by simp [hs])] at hc
                   rw [parseSyncGo_skip line "del" delMarker _ (by simp [hs2])] at hc
                   rw [parseSyncGo_skip line "upd" updMarker _ (by simp [hs3])] at hc
                   rw [parseSyncGo_skip line "clb" cantClobberMarker _ h] at hc
                   simp [parseSyncGo] at hc)))
  · intro h1 h2 h3 h4
    rw [parse_p4_sync_line, syncLinePatterns]
    rw [parseSyncGo_skip line "add" addMarker _ h1,
        parseSyncGo_skip line "del" delMarker _ h2,
        parseSyncGo_skip line "upd" updMarker _ h3,
        parseSyncGo_skip line "clb" cantClobberMarker _ h4]
    rfl

/-- Witness for C10: a line that contains the added marker twice (three
tokens) and no other marker; it is not classified as added and is reported
unparsable. -/
theorem parse_p4_sync_line_skips_repeated_markers_witness :
    parse_p4_sync_line "x - added as y - added as z".toList = (none, none)
    ∧ (parse_p4_sync_line "x - added as y - added as z".toList).1 ≠ some "add" :=
  ⟨(parse_p4_sync_line_skips_repeated_markers "x - added as y - added as z".toList).2.2.2.2
      (by decide) (by decide) (by decide) (by decide),
   (parse_p4_sync_line_skips_repeated_markers "x - added as y - added as z".toList).1
      (by decide)⟩

/-- The clobber scan is the filter-map extracting, from the stderr lines that
begin with the clobber marker, the text after the marker with trailing
whitespace stripped. -/
theorem get_writable_files_eq_filterMap (ls : List (List Char)) :
    get_writable_files ls = ls.filterMap
      (fun line => if cantClobberMarker.isPrefixOf line
        then some (pyRstrip (line.drop cantClobberMarker.length)) else none) := by
  induction ls with
  | nil => rfl
  | cons l tl ih =>
    by_cases h : cantClobberMarker.isPrefixOf l
    · simp [get_writable_files, h, List.filterMap_cons, ih,
        -List.isPrefixOf_iff_prefix]
    · simp [get_writable_files, h, List.filterMap_cons, ih,
        -List.isPrefixOf_iff_prefix]

/-- C5: when the dry count succeeds with at least one file, the mutating sync
exits non-zero and the force flag is false, `p4_sync` lists exactly the
blocked paths extracted by `get_writable_files` from the captured stderr
(lines beginning with the clobber marker, marker removed, trailing whitespace
stripped), performs zero forced per-file retries, and returns failure. -/
theorem p4_sync_no_force_aborts (dryRes syncRes : RunResult) (retry : List Char → Int)
    (h1 : dryRes.returncode = 0) (h2 : dryRes.stdout ≠ [])
    (h3 : syncRes.returncode ≠ 0) :
    p4_sync dryRes syncRes false retry
      = ⟨false, get_writable_files syncRes.stderr, 0⟩
    ∧ get_writable_files syncRes.stderr = syncRes.stderr.filterMap
        (fun line => if cantClobberMarker.isPrefixOf line
          then some (pyRstrip (line.drop cantClobberMarker.length)) else none) := by
  have hfc : get_file_count_to_sync dryRes = (dryRes.stdout.length : Int) := by
    unfold get_file_count_to_sync
    rw [if_neg (by simp [h1])]
  refine ⟨?_, get_writable_files_eq_filterMap _⟩
  unfold p4_sync
  rw [hfc]
  rw [if_neg (by omega)]
  rw [if_neg (by simp [h2])]
  rw [if_neg h3]
  rfl

/-- Witness for C5: a dry count of 3 and a mutating run with exit code 1
whose stderr carries two clobber-blocked lines (the second with trailing
whitespace) and one unrelated line. -/
theorem p4_sync_no_force_aborts_witness :
    p4_sync ⟨0, [[], [], []], []⟩
        ⟨1, [], ["Can't clobber writable file /ws/a.txt".toList,
                 "noise".toList,
                 "Can't clobber writable file /ws/b.txt ".toList]⟩
        false (fun _ => 0)
      = ⟨false, ["/ws/a.txt".toList, "/ws/b.txt".toList], 0⟩ := by
  rw [(p4_sync_no_force_aborts ⟨0, [[], [], []], []⟩
        ⟨1, [], ["Can't clobber writable file /ws/a.txt".toList,
                 "noise".toList,
                 "Can't clobber writable file /ws/b.txt ".toList]⟩
        (fun _ => 0) rfl (by decide) (by decide)).1]
  decide

/-- Field accounting of `bumpCount`: the count of the mode's own kind grows
by one, every other field is unchanged. -/
theorem bumpCount_spec (st : P4SyncOutputProcessor) (m : String) :
    (st.bumpCount m).add.count = st.add.count + (if m = "add" then 1 else 0)
    ∧ (st.bumpCount m).del.count = st.del.count + (if m = "del" then 1 else 0)
    ∧ (st.bumpCount m).upd.count = st.upd.count + (if m = "upd" then 1 else 0)
    ∧ (st.bumpCount m).clb.count = st.clb.count + (if m = "clb" then 1 else 0)
    ∧ (st.bumpCount m).add.total_size = st.add.total_size
    ∧ (st.bumpCount m).del.total_size = st.del.total_size
    ∧ (st.bumpCount m).upd.total_size = st.upd.total_size
    ∧ (st.bumpCount m).clb.total_size = st.clb.total_size
    ∧ (st.bumpCount m).synced_file_count = st.synced_file_count
    ∧ (st.bumpCount m).file_count_to_sync = st.file_count_to_sync := by
  unfold P4SyncOutputProcessor.bumpCount
  split <;> simp_all

/-- Field accounting of `bumpSize`: the total size of the mode's own kind
grows by the given size, every other field is unchanged. -/
theorem bumpSize_spec (st : P4SyncOutputProcessor) (m : String) (sz : Nat) :
    (st.bumpSize m sz).add.count = st.add.count
    ∧ (st.bumpSize m sz).del.count = st.del.count
    ∧ (st.bumpSize m sz).upd.count = st.upd.count
    ∧ (st.bumpSize m sz).clb.count = st.clb.count
    ∧ (st.bumpSize m sz).add.total_size
        = st.add.total_size + (if m = "add" then sz else 0)
    ∧ (st.bumpSize m sz).del.total_size = st.del.total_size
    ∧ (st.bumpSize m sz).upd.total_size
        = st.upd.total_size + (if m = "upd" then sz else 0)
    ∧ (st.bumpSize m sz).clb.total_size
        = st.clb.total_size + (if m = "clb" then sz else 0)
    ∧ (st.bumpSize m sz).synced_file_count = st.synced_file_count
    ∧ (st.bumpSize m sz).file_count_to_sync = st.file_count_to_sync := by
  unfold P4SyncOutputProcessor.bumpSize
  split <;> simp_all

/-- One `__call__` in terms of the specification-side line view. -/
theorem call_eq_observedParse (fs : List Char → Option Nat)
    (st : P4SyncOutputProcessor) (line : List Char) :
    P4SyncOutputProcessor.call fs st line =
      match observedParse line with
      | none => st
      | some (m, f) =>
        let st1 := st.bumpCount m
        let st2 := { st1 with synced_file_count := st1.synced_file_count + 1 }
        if m = "add" ∨ m = "upd" ∨ m = "clb" then
          st2.bumpSize m (get_file_size fs f)
        else st2 := by
  unfold P4SyncOutputProcessor.call observedParse
  by_cases h : upToDateSearch line
  · simp [h]
  · simp only [h, Bool.false_eq_true, if_false]
    rcases parse_p4_sync_line line with ⟨_ | m, _ | f⟩
    · rfl
    · rfl
    · rfl
    · by_cases he : m = "" ∨ f = []
      · simp [he]
      · simp [he]

/-- Field accounting of one `__call__`: the counted kind's count grows by
one, the synced-file counter grows by one exactly when the line is counted,
the counted kind's size total grows by the resolved file size for the kinds
that resolve sizes, and everything else is unchanged. -/
theorem call_spec (fs : List Char → Option Nat) (st : P4SyncOutputProcessor)
    (line : List Char) :
    (P4SyncOutputProcessor.call fs st line).add.count
        = st.add.count + (if observedMode line == some "add" then 1 else 0)
    ∧ (P4SyncOutputProcessor.call fs st line).del.count
        = st.del.count + (if observedMode line == some "del" then 1 else 0)
    ∧ (P4SyncOutputProcessor.call fs st line).upd.count
        = st.upd.count + (if observedMode line == some "upd" then 1 else 0)
    ∧ (P4SyncOutputProcessor.call fs st line).clb.count
        = st.clb.count + (if observedMode line == some "clb" then 1 else 0)
    ∧ (P4SyncOutputProcessor.call fs st line).synced_file_count
        = st.synced_file_count + (if (observedMode line).isSome then 1 else 0)
    ∧ (P4SyncOutputProcessor.call fs st line).add.total_size
        = st.add.total_size + chargedSize fs "add" line
    ∧ (P4SyncOutputProcessor.call fs st line).del.total_size = st.del.total_size
    ∧ (P4SyncOutputProcessor.call fs st line).upd.total_size
        = st.upd.total_size + chargedSize fs "upd" line
    ∧ (P4SyncOutputProcessor.call fs st line).clb.total_size
        = st.clb.total_size + chargedSize fs "clb" line
    ∧ (P4SyncOutputProcessor.call fs st line).file_count_to_sync
        = st.file_count_to_sync := by
  rw [call_eq_observedParse]
  unfold observedMode chargedSize
  rcases ho : observedParse line with _ | ⟨m, f⟩
  · simp
  · simp only [ho, Option.map_some, Option.isSome_some, if_true]
    unfold P4SyncOutputProcessor.bumpCount P4SyncOutputProcessor.bumpSize
    by_cases h1 : m = "add"
    · subst h1; simp
    · by_cases h2 : m = "del"
      · subst h2; simp
      · by_cases h3 : m = "upd"
        · subst h3; simp
        · by_cases h4 : m = "clb"
          · subst h4; simp
          · simp [h1, h2, h3, h4]

/-- Field accounting of a whole observed line sequence. -/
theorem observeAll_spec (fs : List Char → Option Nat) (lines : List (List Char)) :
    ∀ st : P4SyncOutputProcessor,
    (P4SyncOutputProcessor.observeAll fs st lines).add.count
        = st.add.count + modeCount "add" lines
    ∧ (P4SyncOutputProcessor.observeAll fs st lines).del.count
        = st.del.count + modeCount "del" lines
    ∧ (P4SyncOutputProcessor.observeAll fs st lines).upd.count
        = st.upd.count + modeCount "upd" lines
    ∧ (P4SyncOutputProcessor.observeAll fs st lines).clb.count
        = st.clb.count + modeCount "clb" lines
    ∧ (P4SyncOutputProcessor.observeAll fs st lines).synced_file_count
        = st.synced_file_count + lines.countP (fun l => (observedMode l).isSome)
    ∧ (P4SyncOutputProcessor.observeAll fs st lines).add.total_size
        = st.add.total_size + modeSizeSum fs "add" lines
    ∧ (P4SyncOutputProcessor.observeAll fs st lines).del.total_size
        = st.del.total_size
    ∧ (P4SyncOutputProcessor.observeAll fs st lines).upd.total_size
        = st.upd.total_size + modeSizeSum fs "upd" lines
    ∧ (P4SyncOutputProcessor.observeAll fs st lines).clb.total_size
        = st.clb.total_size + modeSizeSum fs "clb" lines
    ∧ (P4SyncOutputProcessor.observeAll fs st lines).file_count_to_sync
        = st.file_count_to_sync := by
  induction lines with
  | nil =>
    intro st
    simp [P4SyncOutputProcessor.observeAll, modeCount, modeSizeSum]
  | cons l ls ih =>
    intro st
    have hstep := call_spec fs st l
    have hrest := ih (P4SyncOutputProcessor.call fs st l)
    obtain ⟨s1, s2, s3, s4, s5, s6, s7, s8, s9, s10⟩ := hstep
    obtain ⟨r1, r2, r3, r4, r5, r6, r7, r8, r9, r10⟩ := hrest
    have hobs : P4SyncOutputProcessor.observeAll fs st (l :: ls)
        = P4SyncOutputProcessor.observeAll fs (P4SyncOutputProcessor.call fs st l) ls := rfl
    rw [hobs] at *
    refine ⟨?_, ?_, ?_, ?_, ?_, ?_, ?_, ?_, ?_, ?_⟩
    · rw [r1, s1, modeCount, modeCount, List.countP_cons]; omega
    · rw [r2, s2, modeCount, modeCount, List.countP_cons]; omega
    · rw [r3, s3, modeCount, modeCount, List.countP_cons]; omega
    · rw [r4, s4, modeCount, modeCount, List.countP_cons]; omega
    · rw [r5, s5, List.countP_cons]; omega
    · rw [r6, s6, modeSizeSum, modeSizeSum, List.map_cons, List.sum_cons]; omega
    · rw [r7, s7]
    · rw [r8, s8, modeSizeSum, modeSizeSum, List.map_cons, List.sum_cons]; omega
    · rw [r9, s9, modeSizeSum, modeSizeSum, List.map_cons, List.sum_cons]; omega
    · rw [r10, s10]

/-- C2: for every line sequence observed by one aggregator instance, the
snapshot (at any nonzero elapsed duration, so that the unrelated throughput
division succeeds) reports effectiveCount = added.count + updated.count −
clobberBlocked.count and effectiveBytes = added.bytes + updated.bytes −
clobberBlocked.bytes, where the per-kind figures are exactly the per-kind
line counts and charged sizes of the observed sequence; and whenever the
clobber-blocked count does not exceed the added-plus-updated count, the
reported effective count is not negative. -/
theorem snapshot_effective_count (fs : List Char → Option Nat) (k : Int)
    (lines : List (List Char)) (d : ℚ) (hd : d ≠ 0) :
    get_sync_stats (P4SyncOutputProcessor.observeAll fs
        (P4SyncOutputProcessor.init k) lines) d
      = some ⟨(modeCount "add" lines : Int) + modeCount "upd" lines
                - modeCount "clb" lines,
              (modeSizeSum fs "add" lines : Int) + modeSizeSum fs "upd" lines
                - modeSizeSum fs "clb" lines,
              d,
              (((modeSizeSum fs "add" lines : Int) + modeSizeSum fs "upd" lines
                - modeSizeSum fs "clb" lines : Int) : ℚ) / d⟩
    ∧ (modeCount "clb" lines ≤ modeCount "add" lines + modeCount "upd" lines →
       ∀ r ∈ get_sync_stats (P4SyncOutputProcessor.observeAll fs
          (P4SyncOutputProcessor.init k) lines) d, 0 ≤ r.file_count) := by
  obtain ⟨e1, -, e3, e4, -, e6, -, e8, e9, -⟩ :=
    observeAll_spec fs lines (P4SyncOutputProcessor.init k)
  have hcnt : synced_count (P4SyncOutputProcessor.observeAll fs
      (P4SyncOutputProcessor.init k) lines)
      = (modeCount "add" lines : Int) + modeCount "upd" lines
        - modeCount "clb" lines := by
    unfold synced_count
    rw [e1, e3, e4]
    simp [P4SyncOutputProcessor.init]
  have hsz : synced_size (P4SyncOutputProcessor.observeAll fs
      (P4SyncOutputProcessor.init k) lines)
      = (modeSizeSum fs "add" lines : Int) + modeSizeSum fs "upd" lines
        - modeSizeSum fs "clb" lines := by
    unfold synced_size
    rw [e6, e8, e9]
    simp [P4SyncOutputProcessor.init]
  have hmain : get_sync_stats (P4SyncOutputProcessor.observeAll fs
      (P4SyncOutputProcessor.init k) lines) d
      = some ⟨(modeCount "add" lines : Int) + modeCount "upd" lines
                - modeCount "clb" lines,
              (modeSizeSum fs "add" lines : Int) + modeSizeSum fs "upd" lines
                - modeSizeSum fs "clb" lines,
              d,
              (((modeSizeSum fs "add" lines : Int) + modeSizeSum fs "upd" lines
                - modeSizeSum fs "clb" lines : Int) : ℚ) / d⟩ := by
    unfold get_sync_stats
    rw [if_neg hd, hcnt, hsz]
  refine ⟨hmain, fun hle r hr => ?_⟩
  rw [hmain] at hr
  simp only [Option.mem_def, Option.some.injEq] at hr
  subst hr
  simp only []
  omega

/-- Witness for C2: two added lines, one updated line and one clobber-blocked
line on a filesystem where every file has size 10, at one second elapsed. -/
theorem snapshot_effective_count_witness :
    get_sync_stats (P4SyncOutputProcessor.observeAll sampleFs
        (P4SyncOutputProcessor.init 4) sampleSyncLines) 1
      = some ⟨2, 20, 1, 20⟩ := by
  have h := (snapshot_effective_count sampleFs 4 sampleSyncLines 1 (by norm_num)).1
  rw [h]
  have c1 : modeCount "add" sampleSyncLines = 2 := by decide
  have c2 : modeCount "upd" sampleSyncLines = 1 := by decide
  have c3 : modeCount "clb" sampleSyncLines = 1 := by decide
  have s1 : modeSizeSum sampleFs "add" sampleSyncLines = 20 := by decide
  have s2 : modeSizeSum sampleFs "upd" sampleSyncLines = 10 := by decide
  have s3 : modeSizeSum sampleFs "clb" sampleSyncLines = 10 := by decide
  rw [c1, c2, c3, s1, s2, s3]
  simp only [Option.some.injEq, SyncStatsReport.mk.injEq]
  norm_num

/-- C8: over any observed line sequence, every per-kind count and per-kind
total-size field of the aggregator, and the synced-file counter, is
monotonically non-decreasing (all fields are naturals, hence non-negative by
construction; `get_sync_stats` and `print_stats` take the state and return a
report without producing a new state, so only `__call__` mutates). -/
theorem processor_stats_monotone (fs : List Char → Option Nat)
    (st : P4SyncOutputProcessor) (lines : List (List Char)) :
    st.add.count ≤ (P4SyncOutputProcessor.observeAll fs st lines).add.count
    ∧ st.del.count ≤ (P4SyncOutputProcessor.observeAll fs st lines).del.count
    ∧ st.upd.count ≤ (P4SyncOutputProcessor.observeAll fs st lines).upd.count
    ∧ st.clb.count ≤ (P4SyncOutputProcessor.observeAll fs st lines).clb.count
    ∧ st.add.total_size
        ≤ (P4SyncOutputProcessor.observeAll fs st lines).add.total_size
    ∧ st.del.total_size
        ≤ (P4SyncOutputProcessor.observeAll fs st lines).del.total_size
    ∧ st.upd.total_size
        ≤ (P4SyncOutputProcessor.observeAll fs st lines).upd.total_size
    ∧ st.clb.total_size
        ≤ (P4SyncOutputProcessor.observeAll fs st lines).clb.total_size
    ∧ st.synced_file_count
        ≤ (P4SyncOutputProcessor.observeAll fs st lines).synced_file_count := by
  obtain ⟨e1, e2, e3, e4, e5, e6, e7, e8, e9, -⟩ := observeAll_spec fs lines st
  refine ⟨?_, ?_, ?_, ?_, ?_, ?_, ?_, ?_, ?_⟩ <;> omega

/-- For a digit value below ten, `Nat.digitChar` produces a decimal digit
character whose numeric value is the digit. -/
theorem digitChar_digit (m : Nat) (h : m < 10) :
    (Nat.digitChar m).isDigit = true ∧ (Nat.digitChar m).toNat - 48 = m := by
  interval_cases m <;> exact ⟨by decide, by decide⟩

/-- The accumulator of `Nat.toDigitsCore` is a plain suffix. -/
theorem toDigitsCore_append (fuel : Nat) : ∀ (n : Nat) (acc : List Char),
    Nat.toDigitsCore 10 fuel n acc = Nat.toDigitsCore 10 fuel n [] ++ acc := by
  induction fuel with
  | zero => intro n acc; simp [Nat.toDigitsCore]
  | succ f ih =>
    intro n acc
    simp only [Nat.toDigitsCore]
    by_cases h : n / 10 = 0
    · simp [h]
    · simp only [h, if_false]
      rw [ih (n / 10) (Nat.digitChar (n % 10) :: acc),
          ih (n / 10) [Nat.digitChar (n % 10)]]
      simp

/-- `Nat.toDigitsCore` does not depend on the fuel once the fuel exceeds the
number. -/
theorem toDigitsCore_fuel (n : Nat) : ∀ f1 f2 : Nat, n < f1 → n < f2 →
    Nat.toDigitsCore 10 f1 n [] = Nat.toDigitsCore 10 f2 n [] := by
  induction n using Nat.strong_induction_on with
  | _ n ih =>
    intro f1 f2 h1 h2
    match f1, f2 with
    | g1 + 1, g2 + 1 =>
      simp only [Nat.toDigitsCore]
      by_cases h : n / 10 = 0
      · simp [h]
      · simp only [h, if_false]
        have hpos : 0 < n := by
          rcases Nat.eq_zero_or_pos n with h0 | h0
          · exact absurd (by simp [h0]) h
          · exact h0
        have hlt : n / 10 < n := Nat.div_lt_self hpos (by norm_num)
        rw [toDigitsCore_append g1, toDigitsCore_append g2,
            ih (n / 10) hlt g1 g2 (by omega) (by omega)]

/-- Unfolding step of `Nat.toDigits` in base 10. -/
theorem toDigits_step (n : Nat) :
    Nat.toDigits 10 n =
      if n < 10 then [Nat.digitChar n]
      else Nat.toDigits 10 (n / 10) ++ [Nat.digitChar (n % 10)] := by
  unfold Nat.toDigits
  by_cases h : n < 10
  · have h0 : n / 10 = 0 := Nat.div_eq_of_lt h
    simp [Nat.toDigitsCore, h0, Nat.mod_eq_of_lt h, h]
  · have hne : ¬ n / 10 = 0 := by
      intro h0
      exact h ((Nat.div_eq_zero_iff (by norm_num)).1 h0)
    simp only [Nat.toDigitsCore, hne, if_false, h]
    rw [toDigitsCore_append n]
    congr 1
    have hpos : 0 < n := by omega
    exact toDigitsCore_fuel (n / 10) n (n / 10 + 1)
      (Nat.div_lt_self hpos (by norm_num)) (Nat.lt_succ_self _)

/-- The base-10 rendering of a natural number consists of decimal digits, is
nonempty, and `pyInt` recovers the number from it. -/
theorem toDigits_spec (n : Nat) :
    pyInt (Nat.toDigits 10 n) = n
    ∧ (∀ c ∈ Nat.toDigits 10 n, c.isDigit = true)
    ∧ Nat.toDigits 10 n ≠ [] := by
  induction n using Nat.strong_induction_on with
  | _ n ih =>
    rw [toDigits_step n]
    by_cases h : n < 10
    · obtain ⟨hdig, hval⟩ := digitChar_digit n h
      refine ⟨?_, ?_, by simp [h]⟩
      · simp only [h, if_true]
        unfold pyInt
        simpa using hval
      · simp only [h, if_true]
        intro c hc
        simp at hc
        subst hc
        exact hdig
    · have hpos : 0 < n := by omega
      have hlt : n / 10 < n := Nat.div_lt_self hpos (by norm_num)
      obtain ⟨ih1, ih2, ih3⟩ := ih (n / 10) hlt
      obtain ⟨hdig, hval⟩ := digitChar_digit (n % 10) (Nat.mod_lt _ (by norm_num))
      simp only [h, if_false]
      refine ⟨?_, ?_, by simp⟩
      · unfold pyInt
        rw [List.foldl_append]
        simp only [List.foldl_cons, List.foldl_nil]
        unfold pyInt at ih1
        rw [ih1, hval]
        omega
      · intro c hc
        rcases List.mem_append.1 hc with h1 | h2
        · exact ih2 c h1
        · simp at h2
          subst h2
          exact hdig

/-- A digit run followed by a colon is exactly what `takeWhile isDigit`
captures. -/
theorem takeWhile_digits (ds rest2 : List Char) (h : ∀ c ∈ ds, c.isDigit = true) :
    (ds ++ ':' :: rest2).takeWhile Char.isDigit = ds := by
  have hcolon : Char.isDigit ':' = false := by decide
  rw [List.takeWhile_append_of_pos h]
  simp [List.takeWhile_cons, hcolon]

/-- At the start of `<digits><literal><digits><anything>` the greedy group
matcher returns exactly the digit run. -/
theorem changelistMatchAt_msg (ds rest2 : List Char) (hne : ds ≠ [])
    (hd : ∀ c ∈ ds, c.isDigit = true) :
    changelistMatchAt (ds ++ (changelistLit ++ (ds ++ rest2))) = some ds := by
  have htw : (ds ++ (changelistLit ++ (ds ++ rest2))).takeWhile Char.isDigit = ds := by
    have h := takeWhile_digits ds (" p4 sync //...@".toList ++ (ds ++ rest2)) hd
    simpa [changelistLit] using h
  unfold changelistMatchAt
  rw [htw]
  obtain ⟨k, hk⟩ : ∃ k, ds.length = k + 1 := by
    cases ds with
    | nil => exact absurd rfl hne
    | cons a l => exact ⟨l.length, rfl⟩
  rw [hk]
  unfold changelistTryGroup
  rw [← hk]
  have htake : (ds ++ (changelistLit ++ (ds ++ rest2))).take ds.length = ds :=
    List.take_left ds (changelistLit ++ (ds ++ rest2))
  have hdrop : (ds ++ (changelistLit ++ (ds ++ rest2))).drop ds.length
      = changelistLit ++ (ds ++ rest2) :=
    List.drop_left ds (changelistLit ++ (ds ++ rest2))
  rw [htake, hdrop]
  have h1 : changelistLit.isPrefixOf (changelistLit ++ (ds ++ rest2)) = true := by
    rw [List.isPrefixOf_iff_prefix]
    exact List.prefix_append _ _
  have hd2 : (changelistLit ++ (ds ++ rest2)).drop changelistLit.length = ds ++ rest2 :=
    List.drop_left changelistLit (ds ++ rest2)
  have h2 : ds.isPrefixOf ((changelistLit ++ (ds ++ rest2)).drop changelistLit.length)
      = true := by
    rw [hd2, List.isPrefixOf_iff_prefix]
    exact List.prefix_append _ _
  simp [h1, h2]

/-- A start position that is not a digit can never open a match. -/
theorem changelistMatchAt_nondigit (c : Char) (l : List Char)
    (h : c.isDigit = false) : changelistMatchAt (c :: l) = none := by
  unfold changelistMatchAt
  rw [List.takeWhile_cons]
  simp [h, changelistTryGroup]

/-- Searching `<digits><literal><digits><anything>` finds the digit run. -/
theorem changelistSearch_msg (ds rest2 : List Char) (hne : ds ≠ [])
    (hd : ∀ c ∈ ds, c.isDigit = true) :
    changelistSearch (ds ++ (changelistLit ++ (ds ++ rest2))) = some ds := by
  have hm := changelistMatchAt_msg ds rest2 hne hd
  obtain ⟨d0, ds', rfl⟩ : ∃ d0 ds', ds = d0 :: ds' := by
    cases ds with
    | nil => exact absurd rfl hne
    | cons d0 ds' => exact ⟨d0, ds', rfl⟩
  simp only [List.cons_append] at hm ⊢
  rw [changelistSearch.eq_def]
  simp [hm]

/-- C7 counterexample: a message whose two revision-number occurrences differ
can still be matched.  The consuming pattern has no end anchor, so the
back-reference only requires the first number to be a prefix of the digits
after the `@`: on `12: p4 sync //...@123` the search succeeds and recovers
12, although the two occurrences (`12` and `123`) differ — refuting the
claim's clause that any differing-occurrence message is not matched and
yields no recovered revision. -/
theorem git_changelist_matches_differing_occurrences :
    git_changelist_of_last_commit ⟨0, ["12: p4 sync //...@123".toList], []⟩ = some 12
    ∧ changelistSearch "12: p4 sync //...@123".toList = some "12".toList
    ∧ "12".toList ≠ "123".toList := by
  refine ⟨by decide, by decide, by decide⟩

/-- C7 (amended): the commit message the orchestrator produces,
`<n>: p4 sync //...@<n>` with both occurrences equal, is matched by the
consuming back-reference pattern, and `git_changelist_of_last_commit`
recovers exactly `n` from a last commit whose subject is that message (also
when the subject carries the quotes produced by `--pretty="%s"`).  Since the
pattern has no end anchor, the back-reference only has to be a prefix of the
text after the `@`, so a differing-occurrence message is rejected only when
the first number is not such a prefix: in particular
`12: p4 sync //...@13` is not matched and yields no recovered revision. -/
theorem commit_msg_roundtrip (n : Nat) :
    git_changelist_of_last_commit ⟨0, [commit_msg n], []⟩ = some n
    ∧ git_changelist_of_last_commit ⟨0, ['"' :: (commit_msg n ++ ['"'])], []⟩ = some n
    ∧ git_changelist_of_last_commit ⟨0, ["12: p4 sync //...@13".toList], []⟩ = none := by
  obtain ⟨hval, hdig, hne⟩ := toDigits_spec n
  have hrepr : (Nat.repr n).toList = Nat.toDigits 10 n := rfl
  have hmsg : commit_msg n
      = Nat.toDigits 10 n ++ (changelistLit ++ (Nat.toDigits 10 n ++ [])) := by
    unfold commit_msg
    rw [hrepr]
    simp [changelistLit]
  refine ⟨?_, ?_, by decide⟩
  · have hred : git_changelist_of_last_commit ⟨0, [commit_msg n], []⟩
        = match changelistSearch (commit_msg n) with
          | some g => some (pyInt g)
          | none => none := rfl
    rw [hred, hmsg, changelistSearch_msg _ _ hne hdig]
    simp [hval]
  · have hquote : Char.isDigit '"' = false := by decide
    have hsearch : changelistSearch ('"' :: (commit_msg n ++ ['"']))
        = some (Nat.toDigits 10 n) := by
      rw [changelistSearch.eq_def]
      simp only [changelistMatchAt_nondigit '"' _ hquote]
      have hsh : commit_msg n ++ ['"']
          = Nat.toDigits 10 n ++ (changelistLit ++ (Nat.toDigits 10 n ++ ['"'])) := by
        rw [hmsg]; simp
      rw [hsh]
      exact changelistSearch_msg _ _ hne hdig
    have hred : git_changelist_of_last_commit ⟨0, ['"' :: (commit_msg n ++ ['"'])], []⟩
        = match changelistSearch ('"' :: (commit_msg n ++ ['"'])) with
          | some g => some (pyInt g)
          | none => none := rfl
    rw [hred, hsearch]
    simp [hval]

end Pergit
